import Mathlib

/-!
# Verification of the `containers` package (runtime dependency-injection registry)

Shallow embedding of `src/containers/provider.go` and `src/containers/containers.go`.

Modelling conventions.

* `reflect.Type` is the inductive `GoType`, read through the accessors the source and
  `reflect.Value.Call` use (`Kind`, `NumIn`, `IsVariadic`, `NumOut`, `Out`, `Elem`,
  `String`); type identity is structural equality.
* A non-nil dynamic value (`any` holding something) is a `Value`: its dynamic type and an
  identity `ref` (the address for pointers, the closure identity for functions, a payload
  identity otherwise).  `ref = 0` is the nil pointer / nil func.  `Any := Option Value`,
  with `none` the nil interface.
* Closures are side-effecting in Go.  The outputs of the `k`-th invocation of the closure
  with identity `f` are `Program.call f k`; the world records how often each closure has
  been invoked (`World.calls`).  Closures that re-enter the container are outside the model.
* `providerInfo` values live behind pointers that are never shared between two slots of
  the container, so the container stores them by value and `make` returns the updated
  provider, which the caller writes back to the slot it came from.
* `sync.Once` is a flag `done`, set also when the guarded function panics; all executions
  are sequential.
* A Go panic is the outcome `Outcome.panics`; the world reached at the panic is returned too.
* Memory is `World.mem` for the variables that receivers of `NamedResolve` point to and
  `World.fieldMem` for the fields that `Inject` writes; the two are tracked apart, so a
  whole-struct assignment through `NamedResolve` is not reflected in `fieldMem`.
* `Value.Set` is modelled up to its zero-`Value` checks; assignability of an instance stored
  under key `T` to a target of type `T` is guaranteed by Go's typing of the closures.
* The `Must...` variants and the package-level functions of `global.go` wrap the methods
  modelled here and are left out.
-/

namespace Containers

/-! ## Types (`reflect.Type`) -/

mutual
/-- Type descriptors, as far as the container inspects them.  `basic` stands for any type
of a kind the container does not tell apart, `iface` and `struct` for interface and struct
types, all three identified by their type string; `func` carries the
parameter types, the result types and the variadic flag (the last parameter of a variadic
func is a slice type, a `basic` named "[]T"); `defined` is a defined type over a pointer or
func type. -/
inductive GoType where
  | basic (name : String)
  | iface (name : String)
  | struct (name : String)
  | ptr (elem : GoType)
  | func (ins : GoTypes) (outs : GoTypes) (variadic : Bool)
  | defined (name : String) (underlying : GoType)
/-- Lists of type descriptors (parameter and result lists of a func type). -/
inductive GoTypes where
  | nil
  | cons (head : GoType) (tail : GoTypes)
end

mutual
/-- Decision procedure for equality of type descriptors. -/
def GoType.decEq : (a b : GoType) → Decidable (a = b)
  | .basic x, .basic y =>
    if h : x = y then isTrue (by rw [h]) else isFalse (by intro e; cases e; exact h rfl)
  | .iface x, .iface y =>
    if h : x = y then isTrue (by rw [h]) else isFalse (by intro e; cases e; exact h rfl)
  | .struct x, .struct y =>
    if h : x = y then isTrue (by rw [h]) else isFalse (by intro e; cases e; exact h rfl)
  | .ptr x, .ptr y =>
    match GoType.decEq x y with
    | isTrue h => isTrue (by rw [h])
    | isFalse h => isFalse (by intro e; cases e; exact h rfl)
  | .func i o b, .func i2 o2 b2 =>
    if hb : b = b2 then
      match GoTypes.decEq i i2, GoTypes.decEq o o2 with
      | isTrue h, isTrue h2 => isTrue (by rw [h, h2, hb])
      | isFalse h, _ => isFalse (by intro e; cases e; exact h rfl)
      | _, isFalse h => isFalse (by intro e; cases e; exact h rfl)
    else isFalse (by intro e; cases e; exact hb rfl)
  | .defined n u, .defined n2 u2 =>
    if hn : n = n2 then
      match GoType.decEq u u2 with
      | isTrue h => isTrue (by rw [hn, h])
      | isFalse h => isFalse (by intro e; cases e; exact h rfl)
    else isFalse (by intro e; cases e; exact hn rfl)
  | .basic _, .iface _ | .basic _, .struct _ | .basic _, .ptr _ | .basic _, .func _ _ _
  | .basic _, .defined _ _
  | .iface _, .basic _ | .iface _, .struct _ | .iface _, .ptr _ | .iface _, .func _ _ _
  | .iface _, .defined _ _
  | .struct _, .basic _ | .struct _, .iface _ | .struct _, .ptr _ | .struct _, .func _ _ _
  | .struct _, .defined _ _
  | .ptr _, .basic _ | .ptr _, .iface _ | .ptr _, .struct _ | .ptr _, .func _ _ _
  | .ptr _, .defined _ _
  | .func _ _ _, .basic _ | .func _ _ _, .iface _ | .func _ _ _, .struct _ | .func _ _ _, .ptr _
  | .func _ _ _, .defined _ _
  | .defined _ _, .basic _ | .defined _ _, .iface _ | .defined _ _, .struct _
  | .defined _ _, .ptr _ | .defined _ _, .func _ _ _ =>
    isFalse (by intro e; cases e)
/-- Decision procedure for equality of lists of type descriptors. -/
def GoTypes.decEq : (a b : GoTypes) → Decidable (a = b)
  | .nil, .nil => isTrue rfl
  | .cons x xs, .cons y ys =>
    match GoType.decEq x y, GoTypes.decEq xs ys with
    | isTrue h, isTrue h2 => isTrue (by rw [h, h2])
    | isFalse h, _ => isFalse (by intro e; cases e; exact h rfl)
    | _, isFalse h => isFalse (by intro e; cases e; exact h rfl)
  | .nil, .cons _ _ | .cons _ _, .nil => isFalse (by intro e; cases e)
end

instance : DecidableEq GoType := GoType.decEq
instance : DecidableEq GoTypes := GoTypes.decEq

/-- The kinds `reflect.Kind` that the container tells apart. -/
inductive Kind where
  | Func
  | Ptr
  | Struct
  | Interface
  | Other
  deriving DecidableEq, Repr

/-- The list of types in a parameter or result list. -/
def GoTypes.toList : GoTypes → List GoType
  | .nil => []
  | .cons t ts => t :: ts.toList

/-- Method `reflect.Type.Kind`. -/
def GoType.Kind : GoType → Kind
  | .basic _ => .Other
  | .iface _ => .Interface
  | .struct _ => .Struct
  | .ptr _ => .Ptr
  | .func _ _ _ => .Func
  | .defined _ u => u.Kind

/-- Method `reflect.Type.NumIn` (meaningful for func types). -/
def GoType.NumIn : GoType → Nat
  | .func ins _ _ => ins.toList.length
  | .defined _ u => u.NumIn
  | _ => 0

/-- Method `reflect.Type.IsVariadic` (meaningful for func types). -/
def GoType.IsVariadic : GoType → Bool
  | .func _ _ v => v
  | .defined _ u => u.IsVariadic
  | _ => false

/-- Method `reflect.Type.NumOut` (meaningful for func types). -/
def GoType.NumOut : GoType → Nat
  | .func _ outs _ => outs.toList.length
  | .defined _ u => u.NumOut
  | _ => 0

/-- Method `reflect.Type.Out` (meaningful for func types): `none` where Go panics. -/
def GoType.Out : GoType → Nat → Option GoType
  | .func _ outs _, i => outs.toList[i]?
  | .defined _ u, i => u.Out i
  | _, _ => none

/-- Method `reflect.Type.Elem` (meaningful for pointer types): `none` where Go panics. -/
def GoType.Elem : GoType → Option GoType
  | .ptr e => some e
  | .defined _ u => u.Elem
  | _ => none

mutual
/-- Method `reflect.Type.String`. -/
def GoType.typeString : GoType → String
  | .basic n => n
  | .iface n => n
  | .struct n => n
  | .ptr e => "*" ++ e.typeString
  | .func ins outs v =>
    "func(" ++ ins.joinStrings v ++ ")" ++
      (match outs with
       | .nil => ""
       | .cons o .nil => " " ++ o.typeString
       | .cons o (.cons o2 os) =>
         " (" ++ (GoTypes.cons o (.cons o2 os)).joinStrings false ++ ")")
  | .defined n _ => n
/-- The type strings of a list, separated by commas; with `variadic` the last one, a slice
type "[]T", is written "...T". -/
def GoTypes.joinStrings : GoTypes → Bool → String
  | .nil, _ => ""
  | .cons t .nil, v => if v then "..." ++ t.typeString.drop 2 else t.typeString
  | .cons t (.cons t2 ts), v => t.typeString ++ ", " ++ (GoTypes.cons t2 ts).joinStrings v
end

/-! ## Values, errors, outcomes -/

/-- A non-nil dynamic value: dynamic type and identity. -/
structure Value where
  type : GoType
  ref : Nat
  deriving DecidableEq

/-- The content of an `any`: `none` is the nil interface. -/
abbrev Any := Option Value

/-- An `error` value: made by `errors.New`/`fmt.Errorf` here, or handed over by a factory. -/
inductive GoError where
  | new (msg : String)
  | ofValue (v : Value)
  deriving DecidableEq

/-- Method `Error()` for errors created by the container itself. -/
def GoError.message : GoError → Option String
  | .new msg => some msg
  | .ofValue _ => none

/-- Outcome of running Go code: a normal return or a panic. -/
inductive Outcome (α : Type) where
  | ret (a : α)
  | panics (msg : String)
  deriving DecidableEq

/-- A struct field as `reflect` reports it: name, declared type, and the result of
`Tag.Lookup("inject")`. -/
structure StructField where
  name : String
  type : GoType
  inject : Option String
  deriving DecidableEq

/-- The part of the running program the container depends on. -/
structure Program where
  /-- Outputs of the `k`-th invocation (counted from 0) of closure `f`, as `call f k`. -/
  call : Nat → Nat → List Any
  /-- Whether values of a dynamic type satisfy the `error` interface. -/
  implementsError : GoType → Bool
  /-- The declared fields of a struct type, in declaration order. -/
  fields : GoType → List StructField

/-! ## `provider.go` -/

/-- The struct `providerInfo`; `resolverOnce` is `none` for a nil pointer, else the
`done` flag of the `sync.Once`. -/
structure providerInfo where
  resolver : Any
  instance_ : Any
  isSingleton : Bool
  resolverOnce : Option Bool
  deriving DecidableEq

/-- What `(instance, error)` pair a list of call results is turned into by `create`. -/
def interpretRets (prog : Program) (rets : List Any) : Any × Option GoError :=
  match rets with
  | [r0] => (r0, none)
  | [r0, r1] =>
    match r1 with
    | some e => if prog.implementsError e.type then (r0, some (.ofValue e)) else (r0, none)
    | none => (r0, none)
  | _ => (none, some (.new "resolver function signature is invalid"))

/-- Method `providerInfo.create`: call the resolver with no arguments through
`reflect.Value.Call(nil)`, which panics on a non-func, on a nil func and on a func that
declares parameters other than a lone variadic one. -/
def create (prog : Program) (p : providerInfo) (calls : Nat → Nat) :
    Outcome (Any × Option GoError) × (Nat → Nat) :=
  match p.resolver with
  | none => (.panics "reflect: call of reflect.Value.Call on zero Value", calls)
  | some r =>
    if r.type.Kind ≠ Kind.Func then
      (.panics "reflect: call of reflect.Value.Call on non-func Value", calls)
    else if r.ref = 0 then (.panics "reflect: call of nil function", calls)
    else if r.type.IsVariadic = false ∧ r.type.NumIn ≠ 0 then
      (.panics "reflect: Call with too few input arguments", calls)
    else if r.type.IsVariadic = true ∧ r.type.NumIn > 1 then
      (.panics "reflect: Call with too few input arguments", calls)
    else
      (.ret (interpretRets prog (prog.call r.ref (calls r.ref))),
        Function.update calls r.ref (calls r.ref + 1))

/-- Method `providerInfo.make`; returns the outcome, the provider as left behind, and the
invocation counters. -/
def make (prog : Program) (p : providerInfo) (calls : Nat → Nat) :
    Outcome (Any × Option GoError) × providerInfo × (Nat → Nat) :=
  if p.isSingleton then
    if p.instance_.isSome then (.ret (p.instance_, none), p, calls)
    else
      match p.resolverOnce with
      | none => (.panics "runtime error: invalid memory address or nil pointer dereference", p, calls)
      | some true => (.ret (p.instance_, none), p, calls)
      | some false =>
        match create prog p calls with
        | (.ret (inst, err), calls1) =>
          (.ret (inst, err), { p with instance_ := inst, resolverOnce := some true }, calls1)
        | (.panics m, calls1) => (.panics m, { p with resolverOnce := some true }, calls1)
  else
    match create prog p calls with
    | (r, calls1) => (r, p, calls1)

/-! ## `containers.go` -/

/-- The type `Container`: `map[reflect.Type]map[string]*providerInfo`. -/
abbrev Container := GoType → Option (String → Option providerInfo)

/-- Function `New`. -/
def New : Container := fun _ => none

/-- The map read `c[t][name]` with its `exist` flag. -/
def Container.lookup (c : Container) (t : GoType) (name : String) : Option providerInfo :=
  match c t with
  | none => none
  | some m => m name

/-- The map write `c[t][name] = p`, given that `c[t]` exists or is created first. -/
def Container.store (c : Container) (t : GoType) (name : String) (p : providerInfo) : Container :=
  fun t2 =>
    if t2 = t then
      some (fun n => if n = name then some p else
        match c t with
        | none => none
        | some m => m n)
    else c t2

/-- Method `Container.bind`.  For a nil `resolver`, `reflect.TypeOf` is nil and `to.Kind()`
dereferences it. -/
def bind (c : Container) (name : String) (resolver : Any) (isSingleton : Bool) :
    Outcome Unit × Container :=
  match resolver with
  | none => (.panics "runtime error: invalid memory address or nil pointer dereference", c)
  | some r =>
    if r.type.Kind ≠ Kind.Func then
      if isSingleton then
        (.ret (), c.store r.type name
          { resolver := none, instance_ := some r, isSingleton := true, resolverOnce := none })
      else (.panics "resolver must be a function", c)
    else if r.type.NumOut > 0 then
      match r.type.Out 0 with
      | some out =>
        (.ret (), c.store out name
          { resolver := some r, instance_ := none, isSingleton := isSingleton,
            resolverOnce := if isSingleton then some false else none })
      | none => (.panics "reflect: Out index out of range", c)
    else (.panics "resolver must return instance", c)

/-- Method `Container.Register`. -/
def Register (c : Container) (resolver : Any) : Outcome Unit × Container :=
  bind c "" resolver false

/-- Method `Container.NamedRegister`. -/
def NamedRegister (c : Container) (name : String) (resolver : Any) : Outcome Unit × Container :=
  bind c name resolver false

/-- Method `Container.Singleton`. -/
def Singleton (c : Container) (resolver : Any) : Outcome Unit × Container :=
  bind c "" resolver true

/-- Method `Container.NamedSingleton`. -/
def NamedSingleton (c : Container) (name : String) (resolver : Any) : Outcome Unit × Container :=
  bind c name resolver true

/-- Method `Container.Value`. -/
def Value_ (c : Container) (resolver : Any) : Outcome Unit × Container :=
  bind c "" resolver true

/-- Method `Container.NamedValue`. -/
def NamedValue (c : Container) (name : String) (resolver : Any) : Outcome Unit × Container :=
  bind c name resolver true

/-- Method `Container.Reset`. -/
def Reset (_c : Container) : Container := fun _ => none

/-- The mutable state a resolution can touch. -/
structure World where
  /-- The container. -/
  c : Container
  /-- How often each closure has been invoked so far. -/
  calls : Nat → Nat
  /-- The variable a non-nil pointer points to. -/
  mem : Nat → Any
  /-- The fields of the struct a non-nil struct pointer points to. -/
  fieldMem : Nat → Nat → Any

/-- Method `Container.NamedResolve`. -/
def NamedResolve (prog : Program) (w : World) (abstraction : Any) (name : String) :
    Outcome (Option GoError) × World :=
  match abstraction with
  | none => (.ret (some (.new "invalid abstraction in container")), w)
  | some a =>
    if a.type.Kind = Kind.Ptr then
      match a.type.Elem with
      | some elem =>
        match w.c.lookup elem name with
        | some pvd =>
          match make prog pvd w.calls with
          | (.ret (inst, none), pvd1, calls1) =>
            let w1 : World := { w with c := w.c.store elem name pvd1, calls := calls1 }
            match inst with
            | some v =>
              if a.ref = 0 then (.panics "reflect: call of reflect.Value.Set on zero Value", w1)
              else (.ret none, { w1 with mem := Function.update w1.mem a.ref (some v) })
            | none => (.panics "reflect: call of reflect.Value.Set on zero Value", w1)
          | (.ret (_, some err), pvd1, calls1) =>
            (.ret (some err), { w with c := w.c.store elem name pvd1, calls := calls1 })
          | (.panics m, pvd1, calls1) =>
            (.panics m, { w with c := w.c.store elem name pvd1, calls := calls1 })
        | none => (.ret (some (.new ("no resolver found for: " ++ elem.typeString))), w)
      | none => (.panics "reflect: Elem of invalid type", w)
    else (.ret (some (.new "invalid abstraction in container")), w)

/-- Method `Container.Resolve`. -/
def Resolve (prog : Program) (w : World) (abstraction : Any) : Outcome (Option GoError) × World :=
  NamedResolve prog w abstraction ""

/-- The loop of `Container.Inject` over the fields from index `i` on; `s` is the address of
the struct. -/
def injectLoop (prog : Program) (s : Nat) : List StructField → Nat → World →
    Outcome (Option GoError) × World
  | [], _, w => (.ret none, w)
  | f :: rest, i, w =>
    match f.inject with
    | some name =>
      match w.c.lookup f.type name with
      | some concrete =>
        match make prog concrete w.calls with
        | (.ret (inst, none), p1, calls1) =>
          let w1 : World := { w with c := w.c.store f.type name p1, calls := calls1 }
          match inst with
          | some v =>
            injectLoop prog s rest (i + 1)
              { w1 with
                fieldMem := Function.update w1.fieldMem s (Function.update (w1.fieldMem s) i (some v)) }
          | none => (.panics "reflect: call of reflect.Value.Set on zero Value", w1)
        | (.ret (_, some err), p1, calls1) =>
          (.ret (some err), { w with c := w.c.store f.type name p1, calls := calls1 })
        | (.panics m, p1, calls1) =>
          (.panics m, { w with c := w.c.store f.type name p1, calls := calls1 })
      | none => (.ret (some (.new ("container cannot make " ++ f.name ++ " field"))), w)
    | none => injectLoop prog s rest (i + 1) w

/-- Method `Container.Inject`. -/
def Inject (prog : Program) (w : World) (structure_ : Any) : Outcome (Option GoError) × World :=
  match structure_ with
  | none => (.ret (some (.new "invalid struct in container")), w)
  | some a =>
    if a.type.Kind = Kind.Ptr then
      match a.type.Elem with
      | some elem =>
        if elem.Kind = Kind.Struct then
          if a.ref = 0 then (.panics "reflect: call of reflect.Value.NumField on zero Value", w)
          else injectLoop prog a.ref (prog.fields elem) 0 w
        else (.ret (some (.new "invalid struct in container")), w)
      | none => (.panics "reflect: Elem of invalid type", w)
    else (.ret (some (.new "invalid struct in container")), w)

/-! ## Clients used to state the properties -/

/-- The key under which `bind` stores a resolver: its own type for a non-callable, the
first declared output for a callable. -/
def bindTarget (r : Value) : Option GoType :=
  if r.type.Kind ≠ Kind.Func then some r.type else r.type.Out 0

/-- A client calling `NamedResolve` for `name` once per receiver, in order; the result
lists the outcome of each call with the world right after it. -/
def resolveAll (prog : Program) (name : String) : World → List Any →
    List (Outcome (Option GoError) × World)
  | _, [] => []
  | w, a :: rest =>
    (NamedResolve prog w a name) :: resolveAll prog name (NamedResolve prog w a name).2 rest

/-- The factory outputs `rets` are the non-nil instance `v` and no error: either the single
output `v`, or `v` followed by a second output that is not a non-nil `error`. -/
def factoryReturns (prog : Program) (rets : List Any) (v : Value) : Prop :=
  rets = [some v] ∨
    ∃ r1, rets = [some v, r1] ∧ ∀ e, r1 = some e → prog.implementsError e.type = false

/-! ## Example programs (after `containers_test.go`) -/

/-- The type `UseCaseA`. -/
def tUseCaseA : GoType := .struct "containers.UseCaseA"

/-- The interface `UseCase`. -/
def tUseCase : GoType := .iface "containers.UseCase"

/-- The interface `Database`. -/
def tDatabase : GoType := .iface "containers.Database"

/-- The type `*DatabaseImpl`. -/
def tDatabaseImpl : GoType := .ptr (.struct "containers.DatabaseImpl")

/-- The type `Repo`. -/
def tRepo : GoType := .struct "containers.Repo"

/-- A struct type `Holder` with a `UseCase` field and a `Database` field, both tagged "". -/
def tHolder : GoType := .struct "containers.Holder"

/-- The type `*errors.errorString`. -/
def tErrorString : GoType := .ptr (.struct "errors.errorString")

/-- The predeclared interface `error`. -/
def tError : GoType := .iface "error"

/-- A test program.  Closure 1 is `func() *UseCaseA` allocating a fresh object per call;
closure 2 is `func() UseCase` returning nil; closure 3 is `func() (*UseCaseA, error)`
returning a nil pointer and an error; closures 4 and 5 are `func() Database` returning
fixed objects; closure 6 is `func() int`; closure 7 is `func() (UseCase, error)` returning
nil and an error.  `Repo` is the struct of the tests with an untagged field and a second
field tagged "" added. -/
def testProg : Program where
  call := fun f k =>
    match f with
    | 1 => [some ⟨.ptr tUseCaseA, 100 + k⟩]
    | 2 => [none]
    | 3 => [some ⟨.ptr tUseCaseA, 0⟩, some ⟨tErrorString, 50⟩]
    | 4 => [some ⟨tDatabaseImpl, 41⟩]
    | 5 => [some ⟨tDatabaseImpl, 42⟩]
    | 6 => [some ⟨.basic "int", 7⟩]
    | 7 => [none, some ⟨tErrorString, 50⟩]
    | _ => []
  implementsError := fun t => decide (t = tErrorString)
  fields := fun t =>
    if t = tRepo then
      [⟨"Db1", tDatabase, some ""⟩, ⟨"Db2", tDatabase, some "d1"⟩,
        ⟨"Note", .basic "string", none⟩, ⟨"Db3", tDatabase, some ""⟩]
    else if t = tHolder then [⟨"U", tUseCase, some ""⟩, ⟨"Db", tDatabase, some ""⟩]
    else []

/-- The closure value `func() *UseCaseA` (closure 1). -/
def fUseCaseA : Value := ⟨.func .nil (.cons (.ptr tUseCaseA) .nil) false, 1⟩

/-- The closure value `func() UseCase` returning nil (closure 2). -/
def fNilUseCase : Value := ⟨.func .nil (.cons tUseCase .nil) false, 2⟩

/-- The closure value `func() (*UseCaseA, error)` that fails (closure 3). -/
def fFailing : Value := ⟨.func .nil (.cons (.ptr tUseCaseA) (.cons tError .nil)) false, 3⟩

/-- The closure value `func() Database` returning object 41 (closure 4). -/
def fDb1 : Value := ⟨.func .nil (.cons tDatabase .nil) false, 4⟩

/-- The closure value `func() Database` returning object 42 (closure 5). -/
def fDb2 : Value := ⟨.func .nil (.cons tDatabase .nil) false, 5⟩

/-- The closure value `func() int` (closure 6). -/
def fInt : Value := ⟨.func .nil (.cons (.basic "int") .nil) false, 6⟩

/-- The closure value `func() (UseCase, error)` that fails with a nil instance (closure 7). -/
def fFailingNil : Value := ⟨.func .nil (.cons tUseCase (.cons tError .nil)) false, 7⟩

/-- The closure value `func()` without outputs. -/
def fNoOut : Value := ⟨.func .nil .nil false, 8⟩

/-- A world with the given container, no invocation so far and nil variables. -/
def worldOf (c : Container) : World :=
  { c := c, calls := fun _ => 0, mem := fun _ => none, fieldMem := fun _ _ => none }

/-- The world `Inject` has reached when it arrives at field `j` of the struct of type `st`
at address `s`: the fields before `j` have been processed. -/
def worldAtField (prog : Program) (w : World) (st : GoType) (s j : Nat) : World :=
  (injectLoop prog s ((prog.fields st).take j) 0 w).2

/-- The container of `TestContainer_Inject` (`Database` bound by default and under "d1"),
with a `Repo` at address 20 whose untagged third field holds a string. -/
def repoWorld : World :=
  { c := (NamedSingleton (Singleton New (some fDb1)).2 "d1" (some fDb2)).2
    calls := fun _ => 0
    mem := fun _ => none
    fieldMem := fun a i => if a = 20 ∧ i = 2 then some ⟨.basic "string", 9⟩ else none }

/-- As `repoWorld`, but `Database` is bound by default only. -/
def repoWorldDefaultOnly : World :=
  { c := (Singleton New (some fDb1)).2
    calls := fun _ => 0
    mem := fun _ => none
    fieldMem := fun a i => if a = 20 ∧ i = 2 then some ⟨.basic "string", 9⟩ else none }

/-- Construction by provider `p` succeeds with a non-nil instance whenever it is performed:
whatever the invocation counters from `base` on, `make` returns an instance and no error. -/
def Constructs (prog : Program) (base : Nat → Nat) (p : providerInfo) : Prop :=
  ∀ calls : Nat → Nat, (∀ g, base g ≤ calls g) →
    ∃ v p1 calls1, make prog p calls = (.ret (some v, none), p1, calls1)

/-- The value `v` is an instance made by provider `p`: what `make` returns on `p` for some
invocation counters from `base` on. -/
def MadeBy (prog : Program) (base : Nat → Nat) (p : providerInfo) (v : Value) : Prop :=
  ∃ calls p1 calls1, (∀ g, base g ≤ calls g) ∧
    make prog p calls = (.ret (some v, none), p1, calls1)

/-- The world `w` descends from a world with container `c0` and counters `base`: no counter
has gone down, and every slot that held a constructing provider still holds one, which makes
only instances the original provider makes. -/
def Tracks (prog : Program) (base : Nat → Nat) (c0 : Container) (w : World) : Prop :=
  (∀ g, base g ≤ w.calls g) ∧
  ∀ t n p0, c0.lookup t n = some p0 → Constructs prog base p0 →
    ∃ p, w.c.lookup t n = some p ∧ Constructs prog base p ∧
      ∀ v, MadeBy prog base p v → MadeBy prog base p0 v

/-- A `Holder` at address 20 in a container where `UseCase` is bound to the transient factory
returning nil and `Database` to closure 4. -/
def holderWorld : World :=
  worldOf (Register (Register New (some fNilUseCase)).2 (some fDb1)).2

/-- A `Holder` at address 20 in a container where only `UseCase` is bound, to the transient
factory returning nil. -/
def holderWorldUseCaseOnly : World :=
  worldOf (Register New (some fNilUseCase)).2

/-- The provider `bind` creates for a resolver. -/
def newProvider (r : Value) (isSingleton : Bool) : providerInfo :=
  if r.type.Kind ≠ Kind.Func then
    { resolver := none, instance_ := some r, isSingleton := true, resolverOnce := none }
  else
    { resolver := some r, instance_ := none, isSingleton := isSingleton,
      resolverOnce := if isSingleton then some false else none }

/-! ## Lemmas on the container map -/

theorem lookup_store_same (c : Container) (t : GoType) (name : String) (p : providerInfo) :
    (c.store t name p).lookup t name = some p := by
  simp [Container.lookup, Container.store]

theorem lookup_store_of_ne (c : Container) (t t2 : GoType) (name n2 : String) (p : providerInfo)
    (h : t2 ≠ t ∨ n2 ≠ name) : (c.store t name p).lookup t2 n2 = c.lookup t2 n2 := by
  unfold Container.lookup Container.store
  by_cases ht : t2 = t
  · subst ht
    have hn : n2 ≠ name := by
      rcases h with h | h
      · exact absurd rfl h
      · exact h
    simp [hn]
  · simp [ht]

theorem store_store (c : Container) (t : GoType) (name : String) (p q : providerInfo) :
    (c.store t name p).store t name q = c.store t name q := by
  funext t2
  unfold Container.store
  by_cases ht : t2 = t
  · subst ht
    simp only [if_true]
    congr 1
    funext n
    by_cases hn : n = name
    · simp [hn]
    · simp [hn]
  · simp [ht]

theorem store_lookup_self (c : Container) (t : GoType) (name : String) (p : providerInfo)
    (h : c.lookup t name = some p) : c.store t name p = c := by
  funext t2
  unfold Container.store
  unfold Container.lookup at h
  by_cases ht : t2 = t
  · subst ht
    cases hc : c t2 with
    | none => simp [hc] at h
    | some m =>
      simp only [hc] at h
      simp only [if_true]
      congr 1
      funext n
      by_cases hn : n = name
      · simp [hn, h]
      · simp [hn]
  · simp [ht]

theorem numOut_pos_of_out : ∀ (t T : GoType), t.Out 0 = some T → t.NumOut > 0
  | .func _ outs _, T, h => by
    simp only [GoType.Out] at h
    simp only [GoType.NumOut]
    cases hl : outs.toList with
    | nil => rw [hl] at h; simp at h
    | cons a b => simp
  | .defined _ u, T, h => by
    simp only [GoType.Out] at h
    simp only [GoType.NumOut]
    exact numOut_pos_of_out u T h
  | .basic _, _, h => by simp [GoType.Out] at h
  | .iface _, _, h => by simp [GoType.Out] at h
  | .struct _, _, h => by simp [GoType.Out] at h
  | .ptr _, _, h => by simp [GoType.Out] at h

theorem bind_eq_store (c : Container) (name : String) (r : Value) (s : Bool) (T : GoType)
    (ht : bindTarget r = some T) :
    bind c name (some r) s = (.ret (), c.store T name (newProvider r s)) ∨
      (r.type.Kind ≠ Kind.Func ∧ s = false ∧
        bind c name (some r) s = (.panics "resolver must be a function", c)) := by
  by_cases hk : r.type.Kind = Kind.Func
  · left
    have ht2 : r.type.Out 0 = some T := by simpa [bindTarget, hk] using ht
    have hpos := numOut_pos_of_out _ _ ht2
    simp [bind, newProvider, hk, ht2, hpos]
  · have ht2 : r.type = T := by simpa [bindTarget, hk] using ht
    cases s with
    | false => right; simp [bind, hk]
    | true => left; subst ht2; simp [bind, newProvider, hk]

/-! ## Lemmas on `create`, `make` and `NamedResolve` -/

theorem interpretRets_of_factoryReturns (prog : Program) (rets : List Any) (v : Value)
    (h : factoryReturns prog rets v) : interpretRets prog rets = (some v, none) := by
  rcases h with h | ⟨r1, h, he⟩
  · subst h; rfl
  · subst h
    cases r1 with
    | none => rfl
    | some e => simp [interpretRets, he e rfl]

theorem create_of_factoryReturns (prog : Program) (p : providerInfo) (calls : Nat → Nat)
    (f : Value) (v : Value)
    (hr : p.resolver = some f) (hfn : f.type.Kind = Kind.Func) (hin : f.type.NumIn = 0)
    (hnil : f.ref ≠ 0)
    (hret : factoryReturns prog (prog.call f.ref (calls f.ref)) v) :
    create prog p calls =
      (.ret (some v, none), Function.update calls f.ref (calls f.ref + 1)) := by
  unfold create
  simp only [hr]
  simp [hfn, hin, hnil, interpretRets_of_factoryReturns prog _ v hret]

theorem make_cached (prog : Program) (p : providerInfo) (calls : Nat → Nat) (v : Value)
    (hs : p.isSingleton = true) (hi : p.instance_ = some v) :
    make prog p calls = (.ret (some v, none), p, calls) := by
  unfold make
  simp [hs, hi]

theorem make_fresh_singleton (prog : Program) (calls : Nat → Nat) (f : Value)
    (v : Value) (hfn : f.type.Kind = Kind.Func) (hin : f.type.NumIn = 0) (hnil : f.ref ≠ 0)
    (hret : factoryReturns prog (prog.call f.ref (calls f.ref)) v) :
    make prog (newProvider f true) calls =
      (.ret (some v, none),
        { resolver := some f, instance_ := some v, isSingleton := true, resolverOnce := some true },
        Function.update calls f.ref (calls f.ref + 1)) := by
  have hc := create_of_factoryReturns prog
    { resolver := some f, instance_ := none, isSingleton := true, resolverOnce := some false }
    calls f v rfl hfn hin hnil hret
  unfold make newProvider
  simp [hfn, hc]

theorem make_transient (prog : Program) (calls : Nat → Nat) (f : Value)
    (v : Value) (hfn : f.type.Kind = Kind.Func) (hin : f.type.NumIn = 0) (hnil : f.ref ≠ 0)
    (hret : factoryReturns prog (prog.call f.ref (calls f.ref)) v) :
    make prog (newProvider f false) calls =
      (.ret (some v, none), newProvider f false,
        Function.update calls f.ref (calls f.ref + 1)) := by
  have hc := create_of_factoryReturns prog
    { resolver := some f, instance_ := none, isSingleton := false, resolverOnce := none }
    calls f v rfl hfn hin hnil hret
  unfold make newProvider
  simp [hfn, hc]

theorem NamedResolve_of_make (prog : Program) (w : World) (T : GoType) (name : String) (r : Nat)
    (p p1 : providerInfo) (v : Value) (calls1 : Nat → Nat)
    (hl : w.c.lookup T name = some p)
    (hm : make prog p w.calls = (.ret (some v, none), p1, calls1)) (hr : r ≠ 0) :
    NamedResolve prog w (some ⟨.ptr T, r⟩) name =
      (.ret none,
        { c := w.c.store T name p1, calls := calls1,
          mem := Function.update w.mem r (some v), fieldMem := w.fieldMem }) := by
  unfold NamedResolve
  simp [GoType.Kind, GoType.Elem, hl, hm, hr]

theorem resolveAll_cached (prog : Program) (name : String) (T : GoType) (p : providerInfo)
    (v : Value) (hs : p.isSingleton = true) (hi : p.instance_ = some v) :
    ∀ (rs : List Nat) (w : World), w.c.lookup T name = some p → (∀ r ∈ rs, r ≠ 0) →
      ∀ (k r : Nat), rs[k]? = some r →
        ∃ res : Outcome (Option GoError) × World,
          (resolveAll prog name w (rs.map fun a => some ⟨.ptr T, a⟩))[k]? = some res ∧
          res.1 = .ret none ∧ res.2.mem r = some v ∧ res.2.calls = w.calls ∧ res.2.c = w.c := by
  intro rs
  induction rs with
  | nil => intro w _ _ k r hk; simp at hk
  | cons r0 rest ih =>
    intro w hl hrs k r hk
    have hr0 : r0 ≠ 0 := hrs r0 (List.mem_cons_self _ _)
    have hstep := NamedResolve_of_make prog w T name r0 p p v w.calls hl
      (make_cached prog p w.calls v hs hi) hr0
    rw [store_lookup_self w.c T name p hl] at hstep
    cases k with
    | zero =>
      simp only [List.getElem?_cons_zero, Option.some.injEq] at hk
      subst hk
      refine ⟨NamedResolve prog w (some ⟨.ptr T, r0⟩) name, by simp [resolveAll], ?_⟩
      rw [hstep]
      simp
    | succ k =>
      simp only [List.getElem?_cons_succ] at hk
      have hrest : ∀ a ∈ rest, a ≠ 0 := fun a ha => hrs a (List.mem_cons_of_mem _ ha)
      obtain ⟨res, h1, h2, h3, h4, h5⟩ := ih (NamedResolve prog w (some ⟨.ptr T, r0⟩) name).2
        (by rw [hstep]; exact hl) hrest k r hk
      refine ⟨res, by simpa [resolveAll] using h1, h2, h3, ?_, ?_⟩
      · rw [h4, hstep]
      · rw [h5, hstep]

theorem bind_func (c : Container) (name : String) (f : Value) (s : Bool)
    (T : GoType) (hfn : f.type.Kind = Kind.Func) (hout : f.type.Out 0 = some T) :
    bind c name (some f) s = (.ret (), c.store T name (newProvider f s)) := by
  have hpos := numOut_pos_of_out _ _ hout
  simp [bind, newProvider, hfn, hout, hpos]

theorem resolveAll_transient (prog : Program) (name : String) (T : GoType) (f : Value)
    (v : Nat → Value) (hfn : f.type.Kind = Kind.Func) (hin : f.type.NumIn = 0)
    (hnil : f.ref ≠ 0)
    (hret : ∀ k, factoryReturns prog (prog.call f.ref k) (v k)) :
    ∀ (rs : List Nat) (w : World), w.c.lookup T name = some (newProvider f false) →
      (∀ r ∈ rs, r ≠ 0) →
      ∀ (k r : Nat), rs[k]? = some r →
        ∃ res : Outcome (Option GoError) × World,
          (resolveAll prog name w (rs.map fun a => some ⟨.ptr T, a⟩))[k]? = some res ∧
          res.1 = .ret none ∧ res.2.mem r = some (v (w.calls f.ref + k)) ∧
          res.2.calls = Function.update w.calls f.ref (w.calls f.ref + k + 1) := by
  intro rs
  induction rs with
  | nil => intro w _ _ k r hk; simp at hk
  | cons r0 rest ih =>
    intro w hl hrs k r hk
    have hr0 : r0 ≠ 0 := hrs r0 (List.mem_cons_self _ _)
    have hstep := NamedResolve_of_make prog w T name r0 _ _ _ _ hl
      (make_transient prog w.calls f _ hfn hin hnil (hret (w.calls f.ref))) hr0
    rw [store_lookup_self w.c T name _ hl] at hstep
    cases k with
    | zero =>
      simp only [List.getElem?_cons_zero, Option.some.injEq] at hk
      subst hk
      refine ⟨NamedResolve prog w (some ⟨.ptr T, r0⟩) name, by simp [resolveAll], ?_⟩
      rw [hstep]
      simp
    | succ k =>
      simp only [List.getElem?_cons_succ] at hk
      have hrest : ∀ a ∈ rest, a ≠ 0 := fun a ha => hrs a (List.mem_cons_of_mem _ ha)
      obtain ⟨res, h1, h2, h3, h4⟩ := ih (NamedResolve prog w (some ⟨.ptr T, r0⟩) name).2
        (by rw [hstep]; exact hl) hrest k r hk
      refine ⟨res, by simpa [resolveAll] using h1, h2, ?_, ?_⟩
      · rw [h3, hstep]
        simp only [Function.update_same]
        rw [show w.calls f.ref + 1 + k = w.calls f.ref + (k + 1) by omega]
      · rw [h4, hstep]
        simp only [Function.update_same, Function.update_idem]
        rw [show w.calls f.ref + 1 + k + 1 = w.calls f.ref + (k + 1) + 1 by omega]

/-! ## The claims -/

/-- C1: after `NamedSingleton` (or `Singleton`, with the empty name) has bound `(T, name)`
to a factory without parameters whose next invocation returns the non-nil instance `v` and
no error, every call in a sequence of `NamedResolve` calls for `(T, name)` with non-nil
pointer-to-`T` receivers returns a nil error and leaves `v` in its receiver, and after each
of the calls, the first included, the factory has been invoked exactly once more than
before the sequence while no other closure has been invoked. -/
theorem singleton_resolves_once (prog : Program) (w : World) (name : String) (f : Value)
    (T : GoType) (v : Value) (rs : List Nat)
    (hfn : f.type.Kind = Kind.Func) (hin : f.type.NumIn = 0) (hout : f.type.Out 0 = some T)
    (hnil : f.ref ≠ 0)
    (hret : factoryReturns prog (prog.call f.ref (w.calls f.ref)) v)
    (hrs : ∀ r ∈ rs, r ≠ 0) :
    (NamedSingleton w.c name (some f)).1 = .ret () ∧
    (Singleton w.c (some f) = NamedSingleton w.c "" (some f)) ∧
    ∀ (k r : Nat), rs[k]? = some r →
      ∃ res : Outcome (Option GoError) × World,
        (resolveAll prog name { w with c := (NamedSingleton w.c name (some f)).2 }
          (rs.map fun a => some ⟨.ptr T, a⟩))[k]? = some res ∧
        res.1 = .ret none ∧ res.2.mem r = some v ∧
        res.2.calls = Function.update w.calls f.ref (w.calls f.ref + 1) := by
  have hb : NamedSingleton w.c name (some f) =
      (.ret (), w.c.store T name (newProvider f true)) := bind_func w.c name f true T hfn hout
  refine ⟨by rw [hb], rfl, ?_⟩
  rw [hb]
  intro k r hk
  cases rs with
  | nil => simp at hk
  | cons r0 rest =>
    have hr0 : r0 ≠ 0 := hrs r0 (List.mem_cons_self _ _)
    have hstep := NamedResolve_of_make prog { w with c := w.c.store T name (newProvider f true) }
      T name r0 _ _ _ _ (lookup_store_same _ _ _ _)
      (make_fresh_singleton prog w.calls f v hfn hin hnil hret) hr0
    simp only [store_store] at hstep
    cases k with
    | zero =>
      simp only [List.getElem?_cons_zero, Option.some.injEq] at hk
      subst hk
      refine ⟨NamedResolve prog { w with c := w.c.store T name (newProvider f true) }
        (some ⟨.ptr T, r0⟩) name, by simp [resolveAll], ?_⟩
      rw [hstep]
      simp
    | succ k =>
      simp only [List.getElem?_cons_succ] at hk
      have hrest : ∀ a ∈ rest, a ≠ 0 := fun a ha => hrs a (List.mem_cons_of_mem _ ha)
      obtain ⟨res, h1, h2, h3, h4, _⟩ := resolveAll_cached prog name T
        { resolver := some f, instance_ := some v, isSingleton := true, resolverOnce := some true }
        v rfl rfl rest
        (NamedResolve prog { w with c := w.c.store T name (newProvider f true) }
          (some ⟨.ptr T, r0⟩) name).2
        (by rw [hstep]; exact lookup_store_same _ _ _ _) hrest k r hk
      refine ⟨res, by simpa [resolveAll] using h1, h2, h3, ?_⟩
      rw [h4, hstep]

/-- Witness for C1: the singleton of `TestContainer_Singleton`, resolved twice; the second
call returns no error and yields object 100, made by the only invocation. -/
theorem singleton_resolves_once_witness :
    ∃ res : Outcome (Option GoError) × World,
      (resolveAll testProg "" { worldOf New with c := (NamedSingleton (worldOf New).c "" (some fUseCaseA)).2 }
        ([10, 11].map fun a => some ⟨.ptr (.ptr tUseCaseA), a⟩))[1]? = some res ∧
      res.1 = .ret none ∧ res.2.mem 11 = some ⟨.ptr tUseCaseA, 100⟩ ∧
      res.2.calls = Function.update (worldOf New).calls fUseCaseA.ref ((worldOf New).calls fUseCaseA.ref + 1) :=
  (singleton_resolves_once testProg (worldOf New) "" fUseCaseA (.ptr tUseCaseA)
    ⟨.ptr tUseCaseA, 100⟩ [10, 11] rfl rfl rfl (by decide) (Or.inl rfl) (by decide)).2.2 1 11 rfl

/-- C2, evaluated on the code: a singleton whose factory returns `(nil pointer, error)` on its
first invocation.  The first resolution returns that error; the second resolution returns
a nil error and stores the cached first output in the receiver, and the factory has run
once.  With a factory whose first output is a nil interface the second resolution panics
instead.  In neither case is the error returned again. -/
theorem singleton_error_not_replayed :
    (resolveAll testProg "" (worldOf (Singleton New (some fFailing)).2)
        [some ⟨.ptr (.ptr tUseCaseA), 10⟩, some ⟨.ptr (.ptr tUseCaseA), 11⟩]).map
      (fun res => (res.1, res.2.mem 11, res.2.calls fFailing.ref)) =
      [(.ret (some (.ofValue ⟨tErrorString, 50⟩)), none, 1),
       (.ret none, some ⟨.ptr tUseCaseA, 0⟩, 1)] ∧
    (resolveAll testProg "" (worldOf (Singleton New (some fFailingNil)).2)
        [some ⟨.ptr tUseCase, 10⟩, some ⟨.ptr tUseCase, 11⟩]).map
      (fun res => (res.1, res.2.mem 11, res.2.calls fFailingNil.ref)) =
      [(.ret (some (.ofValue ⟨tErrorString, 50⟩)), none, 1),
       (.panics "reflect: call of reflect.Value.Set on zero Value", none, 1)] := by
  constructor <;> decide

/-- C3 fails as stated: a transient factory `func() UseCase` that returns a nil instance and
no error is bound without complaint, and resolving it panics instead of assigning. -/
theorem transient_nil_instance_panics :
    (Register New (some fNilUseCase)).1 = .ret () ∧
    (∀ k, testProg.call fNilUseCase.ref k = [none]) ∧
    (NamedResolve testProg (worldOf (Register New (some fNilUseCase)).2)
        (some ⟨.ptr tUseCase, 10⟩) "").1 =
      .panics "reflect: call of reflect.Value.Set on zero Value" :=
  ⟨by decide, fun _ => rfl, by decide⟩

/-- C3 (amended): after `NamedRegister` (or `Register`, with the empty name) has bound
`(T, name)` to a factory without parameters whose every invocation returns a non-nil instance
and no error, the `k`-th of a sequence of resolutions returns a nil error, leaves the instance
of the factory's `k`-th invocation in its receiver, and brings the number of invocations to
`k` (counting from 1); nothing is cached.  If the factory returns a different instance on
each invocation, the instances received by different resolutions differ. -/
theorem transient_resolves_fresh (prog : Program) (w : World) (name : String) (f : Value)
    (T : GoType) (v : Nat → Value) (rs : List Nat)
    (hfn : f.type.Kind = Kind.Func) (hin : f.type.NumIn = 0) (hout : f.type.Out 0 = some T)
    (hnil : f.ref ≠ 0)
    (hret : ∀ k, factoryReturns prog (prog.call f.ref k) (v k))
    (hrs : ∀ r ∈ rs, r ≠ 0) :
    (NamedRegister w.c name (some f)).1 = .ret () ∧
    (Register w.c (some f) = NamedRegister w.c "" (some f)) ∧
    (∀ (k r : Nat), rs[k]? = some r →
      ∃ res : Outcome (Option GoError) × World,
        (resolveAll prog name { w with c := (NamedRegister w.c name (some f)).2 }
          (rs.map fun a => some ⟨.ptr T, a⟩))[k]? = some res ∧
        res.1 = .ret none ∧ res.2.mem r = some (v (w.calls f.ref + k)) ∧
        res.2.calls = Function.update w.calls f.ref (w.calls f.ref + k + 1)) ∧
    (Function.Injective v →
      ∀ (j k rj rk : Nat) (resj resk : Outcome (Option GoError) × World), j ≠ k →
        rs[j]? = some rj → rs[k]? = some rk →
        (resolveAll prog name { w with c := (NamedRegister w.c name (some f)).2 }
          (rs.map fun a => some ⟨.ptr T, a⟩))[j]? = some resj →
        (resolveAll prog name { w with c := (NamedRegister w.c name (some f)).2 }
          (rs.map fun a => some ⟨.ptr T, a⟩))[k]? = some resk →
        resj.2.mem rj ≠ resk.2.mem rk) := by
  have hb : NamedRegister w.c name (some f) =
      (.ret (), w.c.store T name (newProvider f false)) := bind_func w.c name f false T hfn hout
  have key := resolveAll_transient prog name T f v hfn hin hnil hret rs
    { w with c := w.c.store T name (newProvider f false) } (lookup_store_same _ _ _ _) hrs
  refine ⟨by rw [hb], rfl, ?_, ?_⟩
  · rw [hb]; exact key
  · rw [hb]
    intro hinj j k rj rk resj resk hjk hj hk htj htk heq
    obtain ⟨res1, a1, _, a3, _⟩ := key j rj hj
    obtain ⟨res2, b1, _, b3, _⟩ := key k rk hk
    rw [a1] at htj
    rw [b1] at htk
    cases htj
    cases htk
    rw [a3, b3] at heq
    have := hinj (Option.some.inj heq)
    exact hjk (by simpa using this)

/-- Witness for C3: the transient binding of `TestContainer_Register_Pointer`, resolved
twice; the second call receives object 101, made by the second invocation. -/
theorem transient_resolves_fresh_witness :
    ∃ res : Outcome (Option GoError) × World,
      (resolveAll testProg "" { worldOf New with c := (NamedRegister (worldOf New).c "" (some fUseCaseA)).2 }
        ([10, 11].map fun a => some ⟨.ptr (.ptr tUseCaseA), a⟩))[1]? = some res ∧
      res.1 = .ret none ∧
      res.2.mem 11 = some ((fun k => (⟨.ptr tUseCaseA, 100 + k⟩ : Value)) ((worldOf New).calls fUseCaseA.ref + 1)) ∧
      res.2.calls =
        Function.update (worldOf New).calls fUseCaseA.ref ((worldOf New).calls fUseCaseA.ref + 1 + 1) :=
  (transient_resolves_fresh testProg (worldOf New) "" fUseCaseA (.ptr tUseCaseA)
    (fun k => ⟨.ptr tUseCaseA, 100 + k⟩) [10, 11] rfl rfl rfl (by decide) (fun _ => Or.inl rfl)
    (by decide)).2.2.1 1 11 rfl

/-- C4 fails as stated: `Value` applied to a callable (`func() int`) stores the binding
under the callable's first output type `int`, not under the runtime type of the argument,
and resolving the runtime type of the argument finds no provider. -/
theorem value_callable_not_stored_under_own_type :
    (Value_ New (some fInt)).1 = .ret () ∧
    (Value_ New (some fInt)).2.lookup fInt.type "" = none ∧
    (Value_ New (some fInt)).2.lookup (.basic "int") "" =
      some { resolver := some fInt, instance_ := none, isSingleton := true,
             resolverOnce := some false } ∧
    (NamedResolve testProg (worldOf (Value_ New (some fInt)).2) (some ⟨.ptr fInt.type, 10⟩) "").1 =
      .ret (some (.new "no resolver found for: func() int")) := by
  refine ⟨by decide, by decide, by decide, by decide⟩

/-- C4 (amended): for every non-callable instance `v`, `NamedValue name v` (or `Value v`, with
the empty name) stores the binding under the runtime type of `v`, holding `v` itself, and every
call in a later sequence of resolutions of that type and name with non-nil receivers
returns a nil error, leaves exactly `v` in its receiver and invokes no closure. -/
theorem value_resolves_exact (prog : Program) (w : World) (name : String) (v : Value)
    (rs : List Nat) (hk : v.type.Kind ≠ Kind.Func) (hrs : ∀ r ∈ rs, r ≠ 0) :
    NamedValue w.c name (some v) =
      (.ret (), w.c.store v.type name
        { resolver := none, instance_ := some v, isSingleton := true, resolverOnce := none }) ∧
    (Value_ w.c (some v) = NamedValue w.c "" (some v)) ∧
    ∀ (k r : Nat), rs[k]? = some r →
      ∃ res : Outcome (Option GoError) × World,
        (resolveAll prog name { w with c := (NamedValue w.c name (some v)).2 }
          (rs.map fun a => some ⟨.ptr v.type, a⟩))[k]? = some res ∧
        res.1 = .ret none ∧ res.2.mem r = some v ∧ res.2.calls = w.calls := by
  have hk2 : ¬ (v.type.Kind = Kind.Func) := hk
  have hb : NamedValue w.c name (some v) =
      (.ret (), w.c.store v.type name
        { resolver := none, instance_ := some v, isSingleton := true, resolverOnce := none }) := by
    simp [NamedValue, bind, hk2]
  refine ⟨hb, rfl, ?_⟩
  rw [hb]
  intro k r hkr
  obtain ⟨res, h1, h2, h3, h4, _⟩ := resolveAll_cached prog name v.type
    { resolver := none, instance_ := some v, isSingleton := true, resolverOnce := none }
    v rfl rfl rs
    ⟨w.c.store v.type name
        { resolver := none, instance_ := some v, isSingleton := true, resolverOnce := none },
      w.calls, w.mem, w.fieldMem⟩
    (lookup_store_same _ _ _ _) hrs k r hkr
  exact ⟨res, h1, h2, h3, h4⟩

/-- Witness for C4: the value binding of `TestContainer_Value`, resolved twice. -/
theorem value_resolves_exact_witness :
    ∃ res : Outcome (Option GoError) × World,
      (resolveAll testProg "" { worldOf New with c := (NamedValue (worldOf New).c "" (some ⟨.ptr tUseCaseA, 77⟩)).2 }
        ([10, 11].map fun a => some ⟨.ptr (Value.mk (.ptr tUseCaseA) 77).type, a⟩))[1]? = some res ∧
      res.1 = .ret none ∧ res.2.mem 11 = some ⟨.ptr tUseCaseA, 77⟩ ∧
      res.2.calls = (worldOf New).calls :=
  (value_resolves_exact testProg (worldOf New) "" ⟨.ptr tUseCaseA, 77⟩ [10, 11]
    (by decide) (by decide)).2.2 1 11 rfl

/-- C5: when no binding exists for `(T, name)`, `NamedResolve` with a pointer-to-`T` receiver and
that name returns the error with message "no resolver found for: " followed by the type
string of `T`, and changes nothing; `Resolve` does the same for the empty name. -/
theorem resolve_unbound_no_resolver (prog : Program) (w : World) (T : GoType) (name : String)
    (r : Nat) (h : w.c.lookup T name = none) :
    NamedResolve prog w (some ⟨.ptr T, r⟩) name =
      (.ret (some (.new ("no resolver found for: " ++ T.typeString))), w) ∧
    (name = "" → Resolve prog w (some ⟨.ptr T, r⟩) =
      (.ret (some (.new ("no resolver found for: " ++ T.typeString))), w)) := by
  have h1 : NamedResolve prog w (some ⟨.ptr T, r⟩) name =
      (.ret (some (.new ("no resolver found for: " ++ T.typeString))), w) := by
    unfold NamedResolve
    simp [GoType.Kind, GoType.Elem, h]
  refine ⟨h1, ?_⟩
  intro hn
  subst hn
  exact h1

/-- Witness for C5: `UseCase` is bound under the name "other" only; resolving the default
name reports the missing resolver, as in `TestProvider_Not_Found`. -/
theorem resolve_unbound_no_resolver_witness :
    (worldOf (NamedRegister New "other" (some fNilUseCase)).2).c.lookup tUseCase "" = none ∧
    (NamedResolve testProg (worldOf (NamedRegister New "other" (some fNilUseCase)).2)
        (some ⟨.ptr tUseCase, 10⟩) "").1 =
      .ret (some (.new "no resolver found for: containers.UseCase")) :=
  ⟨by decide,
    congrArg Prod.fst (resolve_unbound_no_resolver testProg
      (worldOf (NamedRegister New "other" (some fNilUseCase)).2) tUseCase "" 10 (by decide)).1⟩

/-- C6: when two successive successful bind calls target the same `(T, name)`, the container
after the second bind holds the second provider, freshly made, at `(T, name)`, and is the very
container that the second bind alone would have produced; hence every later sequence of
resolutions runs exactly as if the first bind had never happened. -/
theorem rebind_overwrites (c : Container) (name : String) (r1 r2 : Value) (s1 s2 : Bool)
    (T : GoType)
    (h1 : (bind c name (some r1) s1).1 = .ret ()) (ht1 : bindTarget r1 = some T)
    (h2 : (bind (bind c name (some r1) s1).2 name (some r2) s2).1 = .ret ())
    (ht2 : bindTarget r2 = some T) :
    (bind (bind c name (some r1) s1).2 name (some r2) s2).2.lookup T name =
      some (newProvider r2 s2) ∧
    (bind (bind c name (some r1) s1).2 name (some r2) s2).2 = (bind c name (some r2) s2).2 ∧
    ∀ (prog : Program) (calls : Nat → Nat) (mem : Nat → Any) (fieldMem : Nat → Nat → Any)
      (receivers : List Any),
      resolveAll prog name
          ⟨(bind (bind c name (some r1) s1).2 name (some r2) s2).2, calls, mem, fieldMem⟩
          receivers =
        resolveAll prog name ⟨(bind c name (some r2) s2).2, calls, mem, fieldMem⟩ receivers := by
  have e1 : bind c name (some r1) s1 = (.ret (), c.store T name (newProvider r1 s1)) := by
    rcases bind_eq_store c name r1 s1 T ht1 with h | ⟨_, _, h⟩
    · exact h
    · rw [h] at h1; cases h1
  have e2 : ∀ c0 : Container,
      bind c0 name (some r2) s2 = (.ret (), c0.store T name (newProvider r2 s2)) := by
    intro c0
    rcases bind_eq_store c0 name r2 s2 T ht2 with h | ⟨hk, hs, _⟩
    · exact h
    · rcases bind_eq_store (bind c name (some r1) s1).2 name r2 s2 T ht2 with h | ⟨_, _, h⟩
      · subst hs
        have hk2 : ¬ (r2.type.Kind = Kind.Func) := hk
        simp [bind, hk2] at h
      · rw [h] at h2; cases h2
  have e3 : (bind (bind c name (some r1) s1).2 name (some r2) s2).2 =
      (bind c name (some r2) s2).2 := by
    rw [e2, e2, e1]
    exact store_store _ _ _ _ _
  refine ⟨?_, e3, ?_⟩
  · rw [e2]
    exact lookup_store_same _ _ _ _
  · intro prog calls mem fieldMem receivers
    rw [e3]

/-- Witness for C6: a value bound for `*UseCaseA` is replaced by a transient factory. -/
theorem rebind_overwrites_witness :
    (bind (bind New "" (some ⟨.ptr tUseCaseA, 77⟩) true).2 "" (some fUseCaseA) false).2.lookup
        (.ptr tUseCaseA) "" = some (newProvider fUseCaseA false) ∧
    (bind (bind New "" (some ⟨.ptr tUseCaseA, 77⟩) true).2 "" (some fUseCaseA) false).2 =
      (bind New "" (some fUseCaseA) false).2 :=
  ⟨(rebind_overwrites New "" ⟨.ptr tUseCaseA, 77⟩ fUseCaseA true false (.ptr tUseCaseA)
      (by decide) (by decide) (by decide) (by decide)).1,
    (rebind_overwrites New "" ⟨.ptr tUseCaseA, 77⟩ fUseCaseA true false (.ptr tUseCaseA)
      (by decide) (by decide) (by decide) (by decide)).2.1⟩

/-- C9 fails as stated: for the non-callable argument `5` the transient bind is rejected
with "resolver must be a function", while the singleton bind succeeds and stores the
argument as a precomputed instance. -/
theorem singleton_accepts_non_callable :
    Register New (some ⟨.basic "int", 5⟩) = (.panics "resolver must be a function", New) ∧
    (Singleton New (some ⟨.basic "int", 5⟩)).1 = .ret () ∧
    (Singleton New (some ⟨.basic "int", 5⟩)).2.lookup (.basic "int") "" =
      some { resolver := none, instance_ := some ⟨.basic "int", 5⟩, isSingleton := true,
             resolverOnce := none } := by
  refine ⟨rfl, by decide, by decide⟩

/-- C9 (amended): on a callable argument `NamedSingleton` and `NamedRegister` (and `Singleton`
and `Register`, which use the empty name) succeed or fail alike, a failure leaves the
container as it was, and a callable declaring zero outputs is rejected by both with
"resolver must return instance".  On a non-nil non-callable argument `NamedRegister` fails
with "resolver must be a function" and leaves the container as it was, whereas
`NamedSingleton` succeeds and binds the argument as a precomputed instance, exactly as
`NamedValue` does.  On a nil argument both panic alike with a nil-pointer dereference and
leave the container as it was. -/
theorem singleton_validation (c : Container) (name : String) (r : Value) :
    (r.type.Kind = Kind.Func →
      (NamedSingleton c name (some r)).1 = (NamedRegister c name (some r)).1 ∧
      ((NamedRegister c name (some r)).1 ≠ .ret () →
        (NamedSingleton c name (some r)).2 = c ∧ (NamedRegister c name (some r)).2 = c) ∧
      (r.type.NumOut = 0 →
        NamedSingleton c name (some r) = (.panics "resolver must return instance", c) ∧
        NamedRegister c name (some r) = (.panics "resolver must return instance", c))) ∧
    (r.type.Kind ≠ Kind.Func →
      NamedRegister c name (some r) = (.panics "resolver must be a function", c) ∧
      NamedSingleton c name (some r) =
        (.ret (), c.store r.type name
          { resolver := none, instance_ := some r, isSingleton := true, resolverOnce := none }) ∧
      NamedSingleton c name (some r) = NamedValue c name (some r)) ∧
    (NamedSingleton c name none =
        (.panics "runtime error: invalid memory address or nil pointer dereference", c) ∧
      NamedRegister c name none =
        (.panics "runtime error: invalid memory address or nil pointer dereference", c)) ∧
    (∀ a : Any, Singleton c a = NamedSingleton c "" a ∧ Register c a = NamedRegister c "" a) := by
  refine ⟨?_, ?_, ⟨rfl, rfl⟩, fun _ => ⟨rfl, rfl⟩⟩
  · intro hk
    by_cases hpos : r.type.NumOut > 0
    · have hne : r.type.NumOut ≠ 0 := by omega
      cases ho : r.type.Out 0 with
      | none =>
        refine ⟨?_, ?_, fun hn => absurd hn hne⟩ <;>
          simp [NamedSingleton, NamedRegister, bind, hk, ho, hpos]
      | some out =>
        refine ⟨?_, ?_, fun hn => absurd hn hne⟩ <;>
          simp [NamedSingleton, NamedRegister, bind, hk, ho, hpos]
    · refine ⟨?_, ?_, ?_⟩ <;> simp [NamedSingleton, NamedRegister, bind, hk, hpos]
  · intro hk
    have hk2 : ¬ (r.type.Kind = Kind.Func) := hk
    refine ⟨?_, ?_, rfl⟩ <;> simp [NamedSingleton, NamedRegister, bind, hk2]

/-- Witness for C9: a callable without outputs is rejected by both binds, the non-callable
`5` is rejected by the transient bind only, and nil makes both binds panic alike. -/
theorem singleton_validation_witness :
    (NamedSingleton New "" (some fNoOut) = (.panics "resolver must return instance", New) ∧
      NamedRegister New "" (some fNoOut) = (.panics "resolver must return instance", New)) ∧
    NamedRegister New "" (some ⟨.basic "int", 5⟩) = (.panics "resolver must be a function", New) ∧
    NamedSingleton New "" none = NamedRegister New "" none :=
  ⟨((singleton_validation New "" fNoOut).1 (by decide)).2.2 (by decide),
    ((singleton_validation New "" ⟨.basic "int", 5⟩).2.1 (by decide)).1,
    (singleton_validation New "" fNoOut).2.2.1.1.trans
      (singleton_validation New "" fNoOut).2.2.1.2.symm⟩

/-! ## Lemmas on the loop of `Inject` -/

theorem injectLoop_untagged (prog : Program) (s : Nat) (f : StructField)
    (rest : List StructField) (i : Nat) (w : World) (h : f.inject = none) :
    injectLoop prog s (f :: rest) i w = injectLoop prog s rest (i + 1) w := by
  simp [injectLoop, h]

theorem injectLoop_tagged (prog : Program) (s : Nat) (f : StructField)
    (rest : List StructField) (i : Nat) (w : World) (name : String) (p p1 : providerInfo)
    (calls1 : Nat → Nat) (v : Value)
    (h : f.inject = some name) (hl : w.c.lookup f.type name = some p)
    (hm : make prog p w.calls = (.ret (some v, none), p1, calls1)) :
    injectLoop prog s (f :: rest) i w =
      injectLoop prog s rest (i + 1)
        ⟨w.c.store f.type name p1, calls1, w.mem,
          Function.update w.fieldMem s (Function.update (w.fieldMem s) i (some v))⟩ := by
  simp [injectLoop, h, hl, hm]

theorem injectLoop_unbound (prog : Program) (s : Nat) (f : StructField)
    (rest : List StructField) (i : Nat) (w : World) (name : String)
    (h : f.inject = some name) (hl : w.c.lookup f.type name = none) :
    injectLoop prog s (f :: rest) i w =
      (.ret (some (.new ("container cannot make " ++ f.name ++ " field"))), w) := by
  simp [injectLoop, h, hl]

theorem lookup_store_none (c : Container) (t t2 : GoType) (name n2 : String)
    (p q : providerInfo) (h : c.lookup t2 n2 = none) (hq : c.lookup t name = some q) :
    (c.store t name p).lookup t2 n2 = none := by
  by_cases hne : t2 ≠ t ∨ n2 ≠ name
  · rw [lookup_store_of_ne c t t2 name n2 p hne]; exact h
  · have : t2 = t ∧ n2 = name := by
      constructor
      · by_contra hc; exact hne (Or.inl hc)
      · by_contra hc; exact hne (Or.inr hc)
    rw [this.1, this.2, hq] at h
    cases h

theorem injectLoop_lookup_none (prog : Program) (s : Nat) (t : GoType) (n : String) :
    ∀ (fs : List StructField) (i : Nat) (w : World), w.c.lookup t n = none →
      (injectLoop prog s fs i w).2.c.lookup t n = none := by
  intro fs
  induction fs with
  | nil => intro i w h; simpa [injectLoop] using h
  | cons f rest ih =>
    intro i w h
    cases hf : f.inject with
    | none => rw [injectLoop_untagged prog s f rest i w hf]; exact ih _ _ h
    | some name =>
      cases hl : w.c.lookup f.type name with
      | none => rw [injectLoop_unbound prog s f rest i w name hf hl]; exact h
      | some concrete =>
        have hst : ∀ p, (w.c.store f.type name p).lookup t n = none :=
          fun p => lookup_store_none w.c f.type t name n p concrete h hl
        rcases hm : make prog concrete w.calls with ⟨r, p1, calls1⟩
        cases r with
        | panics m => simp [injectLoop, hf, hl, hm, hst]
        | ret a =>
          rcases a with ⟨inst, err⟩
          cases err with
          | some e => simp [injectLoop, hf, hl, hm, hst]
          | none =>
            cases inst with
            | none => simp [injectLoop, hf, hl, hm, hst]
            | some v =>
              rw [injectLoop_tagged prog s f rest i w name concrete p1 calls1 v hf hl hm]
              exact ih _ _ (hst p1)

theorem injectLoop_append (prog : Program) (s : Nat) (post : List StructField) :
    ∀ (pre : List StructField) (i : Nat) (w : World),
      (injectLoop prog s pre i w).1 = .ret none →
      injectLoop prog s (pre ++ post) i w =
        injectLoop prog s post (i + pre.length) (injectLoop prog s pre i w).2 := by
  intro pre
  induction pre with
  | nil => intro i w _; simp [injectLoop]
  | cons f rest ih =>
    intro i w h
    cases hf : f.inject with
    | none =>
      rw [injectLoop_untagged prog s f rest i w hf] at h ⊢
      rw [List.cons_append, injectLoop_untagged prog s f _ i w hf, ih _ _ h]
      simp only [List.length_cons]
      rw [show i + 1 + rest.length = i + (rest.length + 1) by omega]
    | some name =>
      cases hl : w.c.lookup f.type name with
      | none => rw [injectLoop_unbound prog s f rest i w name hf hl] at h; cases h
      | some concrete =>
        rcases hm : make prog concrete w.calls with ⟨r, p1, calls1⟩
        cases r with
        | panics m => simp [injectLoop, hf, hl, hm] at h
        | ret a =>
          rcases a with ⟨inst, err⟩
          cases err with
          | some e => simp [injectLoop, hf, hl, hm] at h
          | none =>
            cases inst with
            | none => simp [injectLoop, hf, hl, hm] at h
            | some v =>
              rw [injectLoop_tagged prog s f rest i w name concrete p1 calls1 v hf hl hm] at h ⊢
              rw [List.cons_append,
                injectLoop_tagged prog s f _ i w name concrete p1 calls1 v hf hl hm, ih _ _ h]
              simp only [List.length_cons]
              rw [show i + 1 + rest.length = i + (rest.length + 1) by omega]

/-! ## Providers that construct, along the loop of `Inject` -/

theorem le_update_succ (calls : Nat → Nat) (a g : Nat) :
    calls g ≤ Function.update calls a (calls a + 1) g := by
  by_cases h : g = a
  · subst h; simp
  · simp [Function.update_noteq h]

theorem create_calls_mono (prog : Program) (p : providerInfo) (calls : Nat → Nat) (g : Nat) :
    calls g ≤ (create prog p calls).2 g := by
  unfold create
  split
  · exact le_refl _
  · split_ifs
    · exact le_refl _
    · exact le_refl _
    · exact le_refl _
    · exact le_refl _
    · exact le_update_succ _ _ _

theorem make_calls_mono (prog : Program) (p : providerInfo) (calls : Nat → Nat) (g : Nat) :
    calls g ≤ (make prog p calls).2.2 g := by
  have hc := create_calls_mono prog p calls g
  rcases hcr : create prog p calls with ⟨r, calls1⟩
  rw [hcr] at hc
  unfold make
  rw [hcr]
  cases hs : p.isSingleton with
  | false => simpa using hc
  | true =>
    cases hi : p.instance_.isSome with
    | true => simp
    | false =>
      cases ho : p.resolverOnce with
      | none => simp
      | some d =>
        cases d with
        | true => simp
        | false =>
          cases r with
          | panics m => simpa using hc
          | ret a => simpa using hc

theorem make_success_next (prog : Program) (p p1 : providerInfo) (calls calls1 : Nat → Nat)
    (v : Value) (h : make prog p calls = (.ret (some v, none), p1, calls1)) :
    p1 = p ∨ (p1.isSingleton = true ∧ p1.instance_ = some v) := by
  rcases hcr : create prog p calls with ⟨r, calls2⟩
  unfold make at h
  rw [hcr] at h
  cases hs : p.isSingleton with
  | false =>
    left
    simp only [hs, Bool.false_eq_true, if_false, Prod.mk.injEq] at h
    exact h.2.1.symm
  | true =>
    cases hi : p.instance_.isSome with
    | true =>
      left
      simp only [hs, hi, if_true, Prod.mk.injEq] at h
      exact h.2.1.symm
    | false =>
      cases ho : p.resolverOnce with
      | none => simp [hs, hi, ho] at h
      | some d =>
        cases d with
        | true =>
          left
          simp only [hs, hi, ho, if_true, Bool.false_eq_true, if_false, Prod.mk.injEq] at h
          exact h.2.1.symm
        | false =>
          cases r with
          | panics m => simp [hs, hi, ho] at h
          | ret a =>
            right
            rcases a with ⟨inst, err⟩
            simp only [hs, hi, ho, if_true, Bool.false_eq_true, if_false, Prod.mk.injEq,
              Outcome.ret.injEq] at h
            obtain ⟨⟨hinst, _⟩, hp1, _⟩ := h
            rw [← hp1]
            exact ⟨rfl, hinst⟩

theorem constructs_step (prog : Program) (base : Nat → Nat) (p p1 : providerInfo)
    (calls calls1 : Nat → Nat) (v : Value) (hb : ∀ g, base g ≤ calls g)
    (hc : Constructs prog base p)
    (h : make prog p calls = (.ret (some v, none), p1, calls1)) :
    Constructs prog base p1 ∧ (∀ u, MadeBy prog base p1 u → MadeBy prog base p u) ∧
      ∀ g, base g ≤ calls1 g := by
  have hmono : ∀ g, base g ≤ calls1 g := by
    intro g
    have := make_calls_mono prog p calls g
    rw [h] at this
    exact le_trans (hb g) this
  rcases make_success_next prog p p1 calls calls1 v h with he | ⟨hs, hi⟩
  · subst he
    exact ⟨hc, fun _ hu => hu, hmono⟩
  · refine ⟨?_, ?_, hmono⟩
    · intro c2 _
      exact ⟨v, p1, c2, make_cached prog p1 c2 v hs hi⟩
    · intro u hu
      obtain ⟨c2, p2, c3, _, hm⟩ := hu
      rw [make_cached prog p1 c2 v hs hi] at hm
      simp only [Prod.mk.injEq, Outcome.ret.injEq, Option.some.injEq] at hm
      rw [← hm.1.1]
      exact ⟨calls, p1, calls1, hb, h⟩

theorem tracks_refl (prog : Program) (w : World) : Tracks prog w.calls w.c w :=
  ⟨fun _ => le_refl _, fun _ _ p0 hl hc => ⟨p0, hl, hc, fun _ hv => hv⟩⟩

theorem injectLoop_static_step (prog : Program) (s : Nat) (base : Nat → Nat) (c0 : Container)
    (f : StructField) (i : Nat) (w : World) (ht : Tracks prog base c0 w)
    (H : ∀ name, f.inject = some name →
      ∃ p0, c0.lookup f.type name = some p0 ∧ Constructs prog base p0) :
    ∃ w1 : World,
      (∀ rest, injectLoop prog s (f :: rest) i w = injectLoop prog s rest (i + 1) w1) ∧
      Tracks prog base c0 w1 ∧
      (∀ idx, idx ≠ i → w1.fieldMem s idx = w.fieldMem s idx) ∧
      (f.inject = none → w1.fieldMem s i = w.fieldMem s i) ∧
      (∀ name, f.inject = some name →
        ∃ p0 v, c0.lookup f.type name = some p0 ∧ MadeBy prog base p0 v ∧
          (∃ p p1 calls1, w.c.lookup f.type name = some p ∧
            make prog p w.calls = (.ret (some v, none), p1, calls1)) ∧
          w1.fieldMem s i = some v) := by
  cases hf : f.inject with
  | none =>
    refine ⟨w, fun rest => injectLoop_untagged prog s f rest i w hf, ht, fun _ _ => rfl,
      fun _ => rfl, ?_⟩
    intro name hn
    cases hn
  | some name =>
    obtain ⟨p0, hl0, hc0⟩ := H name hf
    obtain ⟨p, hl, hc, hsub⟩ := ht.2 f.type name p0 hl0 hc0
    obtain ⟨v, p1, calls1, hm⟩ := hc w.calls ht.1
    obtain ⟨hc1, hsub1, hmono⟩ := constructs_step prog base p p1 w.calls calls1 v ht.1 hc hm
    refine ⟨⟨w.c.store f.type name p1, calls1, w.mem,
        Function.update w.fieldMem s (Function.update (w.fieldMem s) i (some v))⟩,
      fun rest => injectLoop_tagged prog s f rest i w name p p1 calls1 v hf hl hm,
      ⟨hmono, ?_⟩, ?_, ?_, ?_⟩
    · intro t n q0 hq0 hcq0
      by_cases hkey : t = f.type ∧ n = name
      · obtain ⟨h1, h2⟩ := hkey
        subst h1
        subst h2
        rw [hl0] at hq0
        cases hq0
        exact ⟨p1, lookup_store_same _ _ _ _, hc1, fun u hu => hsub u (hsub1 u hu)⟩
      · have hne : t ≠ f.type ∨ n ≠ name := by
          by_contra hcon
          push_neg at hcon
          exact hkey hcon
        obtain ⟨q, hq, hcq, hsq⟩ := ht.2 t n q0 hq0 hcq0
        exact ⟨q, by simpa [lookup_store_of_ne w.c f.type t name n p1 hne] using hq, hcq, hsq⟩
    · intro idx hidx
      simp [Function.update_noteq hidx]
    · intro h; cases h
    · intro name2 hn
      cases hn
      exact ⟨p0, v, hl0, hsub v ⟨w.calls, p1, calls1, ht.1, hm⟩, ⟨p, p1, calls1, hl, hm⟩,
        by simp⟩

theorem injectLoop_static (prog : Program) (s : Nat) (base : Nat → Nat) (c0 : Container) :
    ∀ (fs : List StructField) (i0 : Nat) (w : World), Tracks prog base c0 w →
      (∀ (j : Nat) (f : StructField) (name : String), fs[j]? = some f → f.inject = some name →
        ∃ p0, c0.lookup f.type name = some p0 ∧ Constructs prog base p0) →
      (injectLoop prog s fs i0 w).1 = .ret none ∧
      (∀ (j : Nat) (f : StructField), fs[j]? = some f →
        (f.inject = none →
          (injectLoop prog s fs i0 w).2.fieldMem s (i0 + j) = w.fieldMem s (i0 + j)) ∧
        (∀ name, f.inject = some name →
          ∃ p0 v, c0.lookup f.type name = some p0 ∧ MadeBy prog base p0 v ∧
            (∃ p p1 calls1,
              (injectLoop prog s (fs.take j) i0 w).2.c.lookup f.type name = some p ∧
              make prog p (injectLoop prog s (fs.take j) i0 w).2.calls =
                (.ret (some v, none), p1, calls1)) ∧
            (injectLoop prog s fs i0 w).2.fieldMem s (i0 + j) = some v)) ∧
      (∀ idx, idx < i0 ∨ i0 + fs.length ≤ idx →
        (injectLoop prog s fs i0 w).2.fieldMem s idx = w.fieldMem s idx) := by
  intro fs
  induction fs with
  | nil =>
    intro i0 w _ _
    refine ⟨rfl, ?_, fun _ _ => rfl⟩
    intro j f hj
    simp at hj
  | cons f rest ih =>
    intro i0 w ht H
    obtain ⟨w1, hstep, ht1, hframe, hun, htag⟩ := injectLoop_static_step prog s base c0 f i0 w ht
      (fun name hn => H 0 f name (by simp) hn)
    obtain ⟨r1, r2, r3⟩ := ih (i0 + 1) w1 ht1
      (fun j g name hj hn => H (j + 1) g name (by simpa using hj) hn)
    rw [hstep]
    refine ⟨r1, ?_, ?_⟩
    · intro j g hj
      cases j with
      | zero =>
        simp only [List.getElem?_cons_zero, Option.some.injEq] at hj
        subst hj
        simp only [Nat.add_zero, List.take_zero]
        rw [r3 i0 (Or.inl (Nat.lt_succ_self i0))]
        refine ⟨hun, ?_⟩
        intro name hn
        obtain ⟨p0, v, a1, a2, a3, a4⟩ := htag name hn
        exact ⟨p0, v, a1, a2, by simpa [injectLoop] using a3, a4⟩
      | succ j =>
        simp only [List.getElem?_cons_succ] at hj
        obtain ⟨a, b⟩ := r2 j g hj
        rw [show i0 + (j + 1) = i0 + 1 + j by omega, List.take_succ_cons, hstep]
        refine ⟨fun h => ?_, b⟩
        rw [a h]
        exact hframe _ (by omega)
    · intro idx hidx
      rw [r3 idx (by simp only [List.length_cons] at hidx; omega)]
      exact hframe _ (by simp only [List.length_cons] at hidx; omega)

/-- C7 fails as stated: both tagged fields of `Holder` have a provider bound in the container,
and the construction for the first field succeeds by the only test the code applies (`make`
returns a nil error), but the instance is nil and `Inject` panics instead of returning nil.
`Inject` on a nil pointer to `Repo` panics as well, although every tagged field of `Repo` has
a provider. -/
theorem inject_nil_instance_panics :
    holderWorld.c.lookup tUseCase "" = some (newProvider fNilUseCase false) ∧
    holderWorld.c.lookup tDatabase "" = some (newProvider fDb1 false) ∧
    (make testProg (newProvider fNilUseCase false) holderWorld.calls).1 = .ret (none, none) ∧
    (make testProg (newProvider fDb1 false) holderWorld.calls).1 =
      .ret (some ⟨tDatabaseImpl, 41⟩, none) ∧
    (Inject testProg holderWorld (some ⟨.ptr tHolder, 20⟩)).1 =
      .panics "reflect: call of reflect.Value.Set on zero Value" ∧
    (Inject testProg repoWorld (some ⟨.ptr tRepo, 0⟩)).1 =
      .panics "reflect: call of reflect.Value.NumField on zero Value" := by
  refine ⟨by decide, by decide, by decide, by decide, by decide, by decide⟩

/-- C7 (amended): let the pointer be non-nil and let every `inject`-tagged field of the struct
have, in the container `Inject` is called with, a provider bound for (declared type, tag value) whose construction succeeds
with a non-nil instance whenever it is performed.  Then `Inject` returns nil, every untagged
field keeps its prior value, and every tagged field holds an instance made by the provider
bound for it, namely the one `make` returned when `Inject` arrived at the field. -/
theorem inject_fills_tagged_fields (prog : Program) (w : World) (st : GoType) (s : Nat)
    (hst : st.Kind = Kind.Struct) (hs : s ≠ 0)
    (H : ∀ (j : Nat) (f : StructField) (name : String),
      (prog.fields st)[j]? = some f → f.inject = some name →
      ∃ p0, w.c.lookup f.type name = some p0 ∧ Constructs prog w.calls p0) :
    (Inject prog w (some ⟨.ptr st, s⟩)).1 = .ret none ∧
    ∀ (j : Nat) (f : StructField), (prog.fields st)[j]? = some f →
      (f.inject = none → (Inject prog w (some ⟨.ptr st, s⟩)).2.fieldMem s j = w.fieldMem s j) ∧
      (∀ name, f.inject = some name →
        ∃ p0 v, w.c.lookup f.type name = some p0 ∧ MadeBy prog w.calls p0 v ∧
          (∃ p p1 calls1, (worldAtField prog w st s j).c.lookup f.type name = some p ∧
            make prog p (worldAtField prog w st s j).calls = (.ret (some v, none), p1, calls1)) ∧
          (Inject prog w (some ⟨.ptr st, s⟩)).2.fieldMem s j = some v) := by
  have hI : Inject prog w (some ⟨.ptr st, s⟩) = injectLoop prog s (prog.fields st) 0 w := by
    simp [Inject, GoType.Kind, GoType.Elem, hst, hs]
  have key := injectLoop_static prog s w.calls w.c (prog.fields st) 0 w (tracks_refl prog w) H
  rw [hI]
  refine ⟨key.1, fun j f hj => ?_⟩
  simpa [worldAtField] using key.2.1 j f hj

/-- Witness for C7: `TestContainer_Inject`.  The fields tagged "" receive the instance of the
default binding, the field of the same type tagged "d1" the instance of the binding named
"d1", and the untagged field keeps its value. -/
theorem inject_fills_tagged_fields_witness :
    (Inject testProg repoWorld (some ⟨.ptr tRepo, 20⟩)).1 = .ret none ∧
    (Inject testProg repoWorld (some ⟨.ptr tRepo, 20⟩)).2.fieldMem 20 0 = some ⟨tDatabaseImpl, 41⟩ ∧
    (Inject testProg repoWorld (some ⟨.ptr tRepo, 20⟩)).2.fieldMem 20 1 = some ⟨tDatabaseImpl, 42⟩ ∧
    (Inject testProg repoWorld (some ⟨.ptr tRepo, 20⟩)).2.fieldMem 20 2 =
      some ⟨.basic "string", 9⟩ ∧
    (Inject testProg repoWorld (some ⟨.ptr tRepo, 20⟩)).2.fieldMem 20 3 =
      some ⟨tDatabaseImpl, 41⟩ := by
  have c1 : Constructs testProg repoWorld.calls (newProvider fDb1 true) := fun calls _ =>
    ⟨_, _, _, make_fresh_singleton testProg calls fDb1 ⟨tDatabaseImpl, 41⟩ rfl rfl (by decide)
      (Or.inl rfl)⟩
  have c2 : Constructs testProg repoWorld.calls (newProvider fDb2 true) := fun calls _ =>
    ⟨_, _, _, make_fresh_singleton testProg calls fDb2 ⟨tDatabaseImpl, 42⟩ rfl rfl (by decide)
      (Or.inl rfl)⟩
  have l1 : repoWorld.c.lookup tDatabase "" = some (newProvider fDb1 true) := by decide
  have l2 : repoWorld.c.lookup tDatabase "d1" = some (newProvider fDb2 true) := by decide
  have m1 : ∀ p0 v, repoWorld.c.lookup tDatabase "" = some p0 →
      MadeBy testProg repoWorld.calls p0 v → v = ⟨tDatabaseImpl, 41⟩ := by
    intro p0 v hl hm
    rw [l1] at hl
    cases hl
    obtain ⟨calls, p1, calls1, _, hmk⟩ := hm
    rw [make_fresh_singleton testProg calls fDb1 ⟨tDatabaseImpl, 41⟩ rfl rfl (by decide)
      (Or.inl rfl)] at hmk
    simp only [Prod.mk.injEq, Outcome.ret.injEq, Option.some.injEq] at hmk
    exact hmk.1.1.symm
  have m2 : ∀ p0 v, repoWorld.c.lookup tDatabase "d1" = some p0 →
      MadeBy testProg repoWorld.calls p0 v → v = ⟨tDatabaseImpl, 42⟩ := by
    intro p0 v hl hm
    rw [l2] at hl
    cases hl
    obtain ⟨calls, p1, calls1, _, hmk⟩ := hm
    rw [make_fresh_singleton testProg calls fDb2 ⟨tDatabaseImpl, 42⟩ rfl rfl (by decide)
      (Or.inl rfl)] at hmk
    simp only [Prod.mk.injEq, Outcome.ret.injEq, Option.some.injEq] at hmk
    exact hmk.1.1.symm
  have key := inject_fills_tagged_fields testProg repoWorld tRepo 20 (by decide) (by decide)
    (by
      intro j f name hj hn
      match j with
      | 0 =>
        have hf : f = ⟨"Db1", tDatabase, some ""⟩ := by simpa [testProg] using hj.symm
        subst hf
        have hname : name = "" := by simpa using hn.symm
        subst hname
        exact ⟨_, l1, c1⟩
      | 1 =>
        have hf : f = ⟨"Db2", tDatabase, some "d1"⟩ := by simpa [testProg] using hj.symm
        subst hf
        have hname : name = "d1" := by simpa using hn.symm
        subst hname
        exact ⟨_, l2, c2⟩
      | 2 =>
        have hf : f = ⟨"Note", .basic "string", none⟩ := by simpa [testProg] using hj.symm
        subst hf
        simp at hn
      | 3 =>
        have hf : f = ⟨"Db3", tDatabase, some ""⟩ := by simpa [testProg] using hj.symm
        subst hf
        have hname : name = "" := by simpa using hn.symm
        subst hname
        exact ⟨_, l1, c1⟩
      | (n + 4) => simp [testProg] at hj)
  refine ⟨key.1, ?_, ?_, ?_, ?_⟩
  · obtain ⟨p0, v, hl, hm, _, hfield⟩ := (key.2 0 ⟨"Db1", tDatabase, some ""⟩ rfl).2 "" rfl
    rw [hfield, m1 p0 v hl hm]
  · obtain ⟨p0, v, hl, hm, _, hfield⟩ := (key.2 1 ⟨"Db2", tDatabase, some "d1"⟩ rfl).2 "d1" rfl
    rw [hfield, m2 p0 v hl hm]
  · exact (key.2 2 ⟨"Note", .basic "string", none⟩ rfl).1 rfl
  · obtain ⟨p0, v, hl, hm, _, hfield⟩ := (key.2 3 ⟨"Db3", tDatabase, some ""⟩ rfl).2 "" rfl
    rw [hfield, m1 p0 v hl hm]

/-- C8 fails as stated: in `Holder` the field `Db` is the first tagged field without a
provider, and the tagged field before it has a provider whose construction succeeds by the
only test the code applies (`make` returns a nil error), but the instance is nil and `Inject`
panics instead of returning the error that names `Db`.  `Inject` on a nil pointer to `Repo`
panics as well, although `Db2` is its first tagged field without a provider. -/
theorem inject_nil_instance_before_unbound_panics :
    holderWorldUseCaseOnly.c.lookup tUseCase "" = some (newProvider fNilUseCase false) ∧
    holderWorldUseCaseOnly.c.lookup tDatabase "" = none ∧
    (make testProg (newProvider fNilUseCase false) holderWorldUseCaseOnly.calls).1 =
      .ret (none, none) ∧
    (Inject testProg holderWorldUseCaseOnly (some ⟨.ptr tHolder, 20⟩)).1 =
      .panics "reflect: call of reflect.Value.Set on zero Value" ∧
    (Inject testProg repoWorldDefaultOnly (some ⟨.ptr tRepo, 0⟩)).1 =
      .panics "reflect: call of reflect.Value.NumField on zero Value" := by
  refine ⟨by decide, by decide, by decide, by decide, by decide⟩

/-- C8 (amended): let the pointer be non-nil, let field `k` carry an `inject` tag and have no provider for (declared type,
tag value) in the container `Inject` is called with, and let every tagged field before `k`
have there a provider whose construction succeeds with a non-nil instance whenever it is
performed.  Then `Inject` returns the error "container cannot make <name of field k> field",
every tagged field before `k` holds an instance made by the provider bound for it, namely the
one `make` returned when `Inject` arrived at the field, the untagged fields before `k` keep
their prior values, and field `k` and every field after it keep their prior values. -/
theorem inject_fails_at_first_unbound (prog : Program) (w : World) (st : GoType) (s : Nat)
    (k : Nat) (fk : StructField) (namek : String)
    (hst : st.Kind = Kind.Struct) (hs : s ≠ 0)
    (hk : (prog.fields st)[k]? = some fk) (htag : fk.inject = some namek)
    (hno : w.c.lookup fk.type namek = none)
    (H : ∀ (j : Nat) (f : StructField) (name : String), j < k →
      (prog.fields st)[j]? = some f → f.inject = some name →
      ∃ p0, w.c.lookup f.type name = some p0 ∧ Constructs prog w.calls p0) :
    (Inject prog w (some ⟨.ptr st, s⟩)).1 =
      .ret (some (.new ("container cannot make " ++ fk.name ++ " field"))) ∧
    (∀ (j : Nat) (f : StructField), j < k → (prog.fields st)[j]? = some f →
      (f.inject = none → (Inject prog w (some ⟨.ptr st, s⟩)).2.fieldMem s j = w.fieldMem s j) ∧
      (∀ name, f.inject = some name →
        ∃ p0 v, w.c.lookup f.type name = some p0 ∧ MadeBy prog w.calls p0 v ∧
          (∃ p p1 calls1, (worldAtField prog w st s j).c.lookup f.type name = some p ∧
            make prog p (worldAtField prog w st s j).calls = (.ret (some v, none), p1, calls1)) ∧
          (Inject prog w (some ⟨.ptr st, s⟩)).2.fieldMem s j = some v)) ∧
    (∀ idx, k ≤ idx → (Inject prog w (some ⟨.ptr st, s⟩)).2.fieldMem s idx = w.fieldMem s idx) := by
  have hI : Inject prog w (some ⟨.ptr st, s⟩) = injectLoop prog s (prog.fields st) 0 w := by
    simp [Inject, GoType.Kind, GoType.Elem, hst, hs]
  obtain ⟨hlt, hget⟩ := List.getElem?_eq_some.mp hk
  have hlen : ((prog.fields st).take k).length = k := by
    rw [List.length_take]; omega
  have hsplit : prog.fields st =
      (prog.fields st).take k ++ fk :: (prog.fields st).drop (k + 1) := by
    rw [← hget, ← List.drop_eq_getElem_cons hlt, List.take_append_drop]
  have hjk : ∀ (j : Nat) (f : StructField), ((prog.fields st).take k)[j]? = some f → j < k := by
    intro j f hj
    by_contra hc
    rw [List.getElem?_take_eq_none (Nat.le_of_not_lt hc)] at hj
    cases hj
  have key := injectLoop_static prog s w.calls w.c ((prog.fields st).take k) 0 w
    (tracks_refl prog w)
    (fun j f name hj hn =>
      H j f name (hjk j f hj) (by rw [← List.getElem?_take_of_lt (hjk j f hj)]; exact hj) hn)
  have hrun : injectLoop prog s (prog.fields st) 0 w =
      (.ret (some (.new ("container cannot make " ++ fk.name ++ " field"))),
        (injectLoop prog s ((prog.fields st).take k) 0 w).2) := by
    conv_lhs => rw [hsplit]
    rw [injectLoop_append prog s _ _ 0 w key.1]
    exact injectLoop_unbound prog s fk _ _ _ namek htag
      (injectLoop_lookup_none prog s fk.type namek _ 0 w hno)
  rw [hI, hrun]
  refine ⟨rfl, ?_, ?_⟩
  · intro j f hlt2 hj
    have := key.2.1 j f (by rw [List.getElem?_take_of_lt hlt2]; exact hj)
    rw [List.take_take, Nat.min_eq_left (Nat.le_of_lt hlt2)] at this
    simpa [worldAtField] using this
  · intro idx hidx
    exact key.2.2 idx (Or.inr (by rw [hlen]; omega))

/-- Witness for C8: `Repo` injected from a container that binds `Database` by default only.
The field tagged "d1" is reported, the field before it holds the default instance, and the
reported field and the ones after it keep their values. -/
theorem inject_fails_at_first_unbound_witness :
    (Inject testProg repoWorldDefaultOnly (some ⟨.ptr tRepo, 20⟩)).1 =
      .ret (some (.new "container cannot make Db2 field")) ∧
    (Inject testProg repoWorldDefaultOnly (some ⟨.ptr tRepo, 20⟩)).2.fieldMem 20 0 =
      some ⟨tDatabaseImpl, 41⟩ ∧
    (Inject testProg repoWorldDefaultOnly (some ⟨.ptr tRepo, 20⟩)).2.fieldMem 20 1 = none ∧
    (Inject testProg repoWorldDefaultOnly (some ⟨.ptr tRepo, 20⟩)).2.fieldMem 20 2 =
      some ⟨.basic "string", 9⟩ ∧
    (Inject testProg repoWorldDefaultOnly (some ⟨.ptr tRepo, 20⟩)).2.fieldMem 20 3 = none := by
  have c1 : Constructs testProg repoWorldDefaultOnly.calls (newProvider fDb1 true) :=
    fun calls _ =>
      ⟨_, _, _, make_fresh_singleton testProg calls fDb1 ⟨tDatabaseImpl, 41⟩ rfl rfl (by decide)
        (Or.inl rfl)⟩
  have l1 : repoWorldDefaultOnly.c.lookup tDatabase "" = some (newProvider fDb1 true) := by
    decide
  have key := inject_fails_at_first_unbound testProg repoWorldDefaultOnly tRepo 20 1
    ⟨"Db2", tDatabase, some "d1"⟩ "d1" (by decide) (by decide) rfl rfl (by decide)
    (by
      intro j f name hjk hj hn
      match j with
      | 0 =>
        have hf : f = ⟨"Db1", tDatabase, some ""⟩ := by simpa [testProg] using hj.symm
        subst hf
        have hname : name = "" := by simpa using hn.symm
        subst hname
        exact ⟨_, l1, c1⟩
      | (n + 1) => omega)
  refine ⟨key.1, ?_, ?_, ?_, ?_⟩
  · obtain ⟨p0, v, hl, hm, _, hfield⟩ :=
      (key.2.1 0 ⟨"Db1", tDatabase, some ""⟩ (by decide) rfl).2 "" rfl
    rw [l1] at hl
    cases hl
    obtain ⟨calls, p1, calls1, _, hmk⟩ := hm
    rw [make_fresh_singleton testProg calls fDb1 ⟨tDatabaseImpl, 41⟩ rfl rfl (by decide)
      (Or.inl rfl)] at hmk
    simp only [Prod.mk.injEq, Outcome.ret.injEq, Option.some.injEq] at hmk
    rw [hfield, ← hmk.1.1]
  · exact key.2.2 1 (by decide)
  · exact key.2.2 2 (by decide)
  · exact key.2.2 3 (by decide)

end Containers
